import Mathlib

/-!
Verification of the terraform-provider-pterodactyl provider core against its
specification.

The development shallowly embeds the two non-trivial pieces of the provider:

* the allocation reconciliation performed by `nodeResource.Update`
  (`src/unnamed/part_004`, lines 413-505), together with the final-state
  assembly shared with `nodeResource.Create` (lines 285-296); and
* the one-of-N identifier lookup performed by `nodeDataSource.Read`
  (`src/internal/provider/node_data_source.go`, lines 173-270).

Terraform framework nullable values (`types.Int32`, `types.String`,
`types.Bool`) are embedded as `Option Int`, `Option String`, `Option Bool`;
`IsNull` is `Option.isNone` and the `Value*` accessors return the Go zero
value on null, exactly as in the framework. Client calls are embedded as
explicit call traces plus a failure oracle `fails : call → Bool` standing
for which backend calls return an error; the Go handlers add a diagnostic
and `return` on the first error, which the embedding models with a `Bool`
success flag.
-/

namespace Pterodactyl

/-- `types.Int32.ValueInt32()`: the value, or `0` when the value is null. -/
def valueInt32 : Option Int → Int
  | none => 0
  | some v => v

/-- `types.String.ValueString()`: the value, or `""` when the value is null. -/
def valueString : Option String → String
  | none => ""
  | some s => s

/-- The Terraform nested-attribute model `Allocation`
(`src/internal/provider/user_resource.go`, lines 464-471). All attributes are
framework nullable values; the Go zero value of the struct has every
attribute null. -/
structure Allocation where
  id : Option Int
  ip : Option String
  aliasName : Option String
  port : Option Int
  notes : Option String
  assigned : Option Bool
deriving Repr, DecidableEq

/-- The Go zero value of `Allocation`: every framework value is null. -/
def zeroAllocation : Allocation :=
  { id := none, ip := none, aliasName := none, port := none, notes := none,
    assigned := none }

/-- The client-library struct `pterodactyl.Allocation` as used by the
provider: plain (non-nullable) fields. -/
structure PAllocation where
  id : Int
  ip : String
  aliasName : String
  port : Int
  notes : String
  assigned : Bool
deriving Repr, DecidableEq

/-- Conversion written out in `nodeResource.Update` lines 497-504 (and
`Create` lines 288-295): each fetched `pterodactyl.Allocation` becomes an
`Allocation` whose attributes are all set (non-null). -/
def allocationOfP (a : PAllocation) : Allocation :=
  { id := some a.id, ip := some a.ip, aliasName := some a.aliasName,
    port := some a.port, notes := some a.notes, assigned := some a.assigned }

/-- `src/unnamed/part_004` lines 494-505 (same shape as lines 285-296 in
`Create`): `plan.Allocations = make([]Allocation, len(nodeAllocations))`
allocates a slice of `len(nodeAllocations)` zero-value elements, and the
following loop `append`s each converted allocation after them. -/
def finalStateAllocations (nodeAllocations : List PAllocation) : List Allocation :=
  List.replicate nodeAllocations.length zeroAllocation
    ++ nodeAllocations.map allocationOfP

/-- The two allocation client calls issued by the reconciliation loops of
`nodeResource.Update`: `DeleteAllocation(nodeID, allocationID)` and
`CreateAllocation(nodeID, PartialAllocation{IP, Ports})`. -/
inductive AllocCall where
  | deleteAlloc (nodeId : Int) (allocId : Int)
  | createAlloc (nodeId : Int) (ip : String) (ports : List String)
deriving Repr, DecidableEq

/-- The inner `found` loop of `nodeResource.Update` lines 425-431: a current
allocation is found when its ID equals `planAllocation.ID.ValueInt32()` for
some plan allocation (a null plan ID compares as `0`). -/
def allocFound (planAllocs : List Allocation) (a : PAllocation) : Bool :=
  planAllocs.any (fun p => a.id == valueInt32 p.id)

/-- Deletion loop of `nodeResource.Update` lines 424-443: every current
allocation that is not found among the plan allocations is deleted; a failing
`DeleteAllocation` call adds a diagnostic and returns immediately. The result
is the list of calls issued (in order) and whether the loop completed without
error. -/
def deletePhase (fails : AllocCall → Bool) (nodeId : Int)
    (planAllocs : List Allocation) :
    List PAllocation → List AllocCall × Bool
  | [] => ([], true)
  | a :: rest =>
    if allocFound planAllocs a then
      deletePhase fails nodeId planAllocs rest
    else
      let c := AllocCall.deleteAlloc nodeId a.id
      if fails c then ([c], false)
      else
        let r := deletePhase fails nodeId planAllocs rest
        (c :: r.1, r.2)

/-- The `Ports` field built at `nodeResource.Update` line 450:
`[]string{strconv.Itoa(int(allocation.Port.ValueInt32()))}`. -/
def portsOf (p : Allocation) : List String :=
  [toString (valueInt32 p.port)]

/-- Creation loop of `nodeResource.Update` lines 446-462: every plan
allocation whose ID is null is submitted to `CreateAllocation`; a failing
call adds a diagnostic and returns immediately. -/
def createPhase (fails : AllocCall → Bool) (nodeId : Int) :
    List Allocation → List AllocCall × Bool
  | [] => ([], true)
  | p :: rest =>
    if p.id.isNone then
      let c := AllocCall.createAlloc nodeId (valueString p.ip) (portsOf p)
      if fails c then ([c], false)
      else
        let r := createPhase fails nodeId rest
        (c :: r.1, r.2)
    else createPhase fails nodeId rest

/-- The allocation reconciliation of `nodeResource.Update` lines 423-462:
the deletion loop runs first; only if it completes without error does the
creation loop run (an error in either loop returns from `Update`). -/
def reconcileAllocations (fails : AllocCall → Bool) (nodeId : Int)
    (planAllocs : List Allocation) (nodeAllocations : List PAllocation) :
    List AllocCall × Bool :=
  let d := deletePhase fails nodeId planAllocs nodeAllocations
  if d.2 then
    let c := createPhase fails nodeId planAllocs
    (d.1 ++ c.1, c.2)
  else d

/-- The failure oracle under which every backend call succeeds. -/
def noFail : AllocCall → Bool := fun _ => false

/-- The prefix of a call sequence a first-error-aborting loop actually
issues: all calls up to and including the first failing one. -/
def takeToFirstFail (fails : AllocCall → Bool) : List AllocCall → List AllocCall
  | [] => []
  | c :: cs => if fails c then [c] else c :: takeToFirstFail fails cs

/-- The client-library struct `pterodactyl.Node`, with the two timestamp
fields embedded as their RFC3339-formatted strings (formatting is done by the
external `time` library; the zero `time.Time` formats to
`"0001-01-01T00:00:00Z"`). -/
structure Node where
  id : Int
  uuid : String
  publicFlag : Bool
  name : String
  description : String
  locationID : Int
  fqdn : String
  scheme : String
  behindProxy : Bool
  maintenanceMode : Bool
  memory : Int
  memoryOverallocate : Int
  disk : Int
  diskOverallocate : Int
  uploadSize : Int
  daemonListen : Int
  daemonSFTP : Int
  daemonBase : String
  createdAt : String
  updatedAt : String
deriving Repr, DecidableEq

/-- The Go zero value of `pterodactyl.Node`, left in `var node
pterodactyl.Node` when a fetch-all scan finds no match. -/
def zeroNode : Node :=
  { id := 0, uuid := "", publicFlag := false, name := "", description := "",
    locationID := 0, fqdn := "", scheme := "", behindProxy := false,
    maintenanceMode := false, memory := 0, memoryOverallocate := 0,
    disk := 0, diskOverallocate := 0, uploadSize := 0, daemonListen := 0,
    daemonSFTP := 0, daemonBase := "",
    createdAt := "0001-01-01T00:00:00Z", updatedAt := "0001-01-01T00:00:00Z" }

/-- `nodeDataSourceModel` (`node_data_source.go` lines 25-46): every
attribute is a framework nullable value. -/
structure NodeDataSourceModel where
  id : Option Int
  uuid : Option String
  publicFlag : Option Bool
  name : Option String
  description : Option String
  locationID : Option Int
  fqdn : Option String
  scheme : Option String
  behindProxy : Option Bool
  maintenanceMode : Option Bool
  memory : Option Int
  memoryOverallocate : Option Int
  disk : Option Int
  diskOverallocate : Option Int
  uploadSize : Option Int
  daemonListen : Option Int
  daemonSFTP : Option Int
  daemonBase : Option String
  createdAt : Option String
  updatedAt : Option String
deriving Repr, DecidableEq

/-- The state assembly of `nodeDataSource.Read` lines 241-262: every
attribute of the model is set from the fetched node. -/
def mapNodeToState (n : Node) : NodeDataSourceModel :=
  { id := some n.id, uuid := some n.uuid, publicFlag := some n.publicFlag,
    name := some n.name, description := some n.description,
    locationID := some n.locationID, fqdn := some n.fqdn,
    scheme := some n.scheme, behindProxy := some n.behindProxy,
    maintenanceMode := some n.maintenanceMode, memory := some n.memory,
    memoryOverallocate := some n.memoryOverallocate, disk := some n.disk,
    diskOverallocate := some n.diskOverallocate,
    uploadSize := some n.uploadSize, daemonListen := some n.daemonListen,
    daemonSFTP := some n.daemonSFTP, daemonBase := some n.daemonBase,
    createdAt := some n.createdAt, updatedAt := some n.updatedAt }

/-- The configuration attributes `nodeDataSource.Read` examines: `id`,
`uuid` and `name` (the remaining model attributes are computed-only and are
never read from the configuration). -/
structure NodeConfig where
  id : Option Int
  uuid : Option String
  name : Option String
deriving Repr, DecidableEq

/-- The network calls a node data source read can issue: `GetNode(id)`
(fetch by primary id) and `GetNodes()` (fetch all). -/
inductive NodeApiCall where
  | getNode (id : Int)
  | getNodes
deriving Repr, DecidableEq

/-- Outcome of a data source read: a populated state, or a diagnostic
`AddError(title, detail)` followed by `return`. -/
inductive ReadResult where
  | ok (state : NodeDataSourceModel)
  | err (title : String) (detail : String)
deriving Repr, DecidableEq

/-- The UUID scan of `nodeDataSource.Read` lines 208-213: `node` starts as
the zero value and is assigned the first element whose UUID matches, the
loop breaking at that point. -/
def scanUUID (uuid : String) : List Node → Node
  | [] => zeroNode
  | n :: rest => if n.uuid == uuid then n else scanUUID uuid rest

/-- The name scan of `nodeDataSource.Read` lines 226-231, identical in shape
to the UUID scan. -/
def scanName (name : String) : List Node → Node
  | [] => zeroNode
  | n :: rest => if n.name == name then n else scanName name rest

/-- `nodeDataSource.Read` lines 183-262: the `if !state.ID.IsNull() / else
if !state.UUID.IsNull() / else if !state.Name.IsNull() / else` chain. The
collaborators `fetchNode` (`GetNode`) and `fetchNodes` (`GetNodes`) carry the
backend responses; the first component of the result is the list of network
calls issued. The missing-attribute detail string appears in the source with
quote marks around the attribute names. -/
def nodeDataSourceRead (fetchNode : Int → Except String Node)
    (fetchNodes : Except String (List Node)) (cfg : NodeConfig) :
    List NodeApiCall × ReadResult :=
  match cfg.id with
  | some i =>
    ([NodeApiCall.getNode i],
      match fetchNode i with
      | Except.error e => ReadResult.err "Unable to Read Pterodactyl Node" e
      | Except.ok n => ReadResult.ok (mapNodeToState n))
  | none =>
    match cfg.uuid with
    | some u =>
      ([NodeApiCall.getNodes],
        match fetchNodes with
        | Except.error e => ReadResult.err "Unable to Read Pterodactyl Node" e
        | Except.ok ns => ReadResult.ok (mapNodeToState (scanUUID u ns)))
    | none =>
      match cfg.name with
      | some nm =>
        ([NodeApiCall.getNodes],
          match fetchNodes with
          | Except.error e => ReadResult.err "Unable to Read Pterodactyl Node" e
          | Except.ok ns => ReadResult.ok (mapNodeToState (scanName nm ns)))
      | none =>
        ([], ReadResult.err "Missing Attribute"
          "One of id, uuid or name must be specified.")

/-! ### Helper lemmas -/

theorem takeToFirstFail_of_all (fails : AllocCall → Bool) :
    ∀ l : List AllocCall, l.all (fun c => !fails c) = true →
      takeToFirstFail fails l = l
  | [], _ => rfl
  | c :: cs, h => by
    rw [List.all_cons, Bool.and_eq_true] at h
    have hc : fails c = false := by
      cases hfc : fails c
      · rfl
      · rw [hfc] at h; simp at h
    simp [takeToFirstFail, hc, takeToFirstFail_of_all fails cs h.2]

theorem takeToFirstFail_append_of_all (fails : AllocCall → Bool) :
    ∀ l m : List AllocCall, l.all (fun c => !fails c) = true →
      takeToFirstFail fails (l ++ m) = l ++ takeToFirstFail fails m
  | [], m, _ => rfl
  | c :: cs, m, h => by
    rw [List.all_cons, Bool.and_eq_true] at h
    have hc : fails c = false := by
      cases hfc : fails c
      · rfl
      · rw [hfc] at h; simp at h
    simp [takeToFirstFail, hc, takeToFirstFail_append_of_all fails cs m h.2]

theorem takeToFirstFail_append_of_fail (fails : AllocCall → Bool) :
    ∀ l m : List AllocCall, l.all (fun c => !fails c) = false →
      takeToFirstFail fails (l ++ m) = takeToFirstFail fails l
  | [], _, h => by simp at h
  | c :: cs, m, h => by
    cases hc : fails c with
    | true => simp [takeToFirstFail, hc]
    | false =>
      rw [List.all_cons, hc] at h
      simp only [Bool.not_false, Bool.true_and] at h
      simp [takeToFirstFail, hc, takeToFirstFail_append_of_fail fails cs m h]

/-- Under the all-succeed oracle, the deletion loop issues exactly one
`DeleteAllocation` per current allocation not found among the plan
allocations, in order, and completes. -/
theorem deletePhase_noFail (nodeId : Int) (planAllocs : List Allocation) :
    ∀ cur : List PAllocation,
      deletePhase noFail nodeId planAllocs cur =
        ((cur.filter (fun a => !allocFound planAllocs a)).map
          (fun a => AllocCall.deleteAlloc nodeId a.id), true)
  | [] => rfl
  | a :: rest => by
    cases h : allocFound planAllocs a with
    | true => simp [deletePhase, h, deletePhase_noFail nodeId planAllocs rest]
    | false =>
      simp [deletePhase, h, noFail, deletePhase_noFail nodeId planAllocs rest]

/-- Under the all-succeed oracle, the creation loop issues exactly one
`CreateAllocation` per plan allocation with a null ID, in order, and
completes. -/
theorem createPhase_noFail (nodeId : Int) :
    ∀ planAllocs : List Allocation,
      createPhase noFail nodeId planAllocs =
        ((planAllocs.filter (fun p => p.id.isNone)).map
          (fun p => AllocCall.createAlloc nodeId (valueString p.ip) (portsOf p)),
          true)
  | [] => rfl
  | p :: rest => by
    cases h : p.id.isNone with
    | true => simp [createPhase, h, noFail, createPhase_noFail nodeId rest]
    | false => simp [createPhase, h, createPhase_noFail nodeId rest]

/-- Under the all-succeed oracle, reconciliation issues the deletion trace
followed by the creation trace and completes. -/
theorem reconcileAllocations_noFail (nodeId : Int)
    (planAllocs : List Allocation) (cur : List PAllocation) :
    reconcileAllocations noFail nodeId planAllocs cur =
      ((cur.filter (fun a => !allocFound planAllocs a)).map
          (fun a => AllocCall.deleteAlloc nodeId a.id)
        ++ (planAllocs.filter (fun p => p.id.isNone)).map
          (fun p => AllocCall.createAlloc nodeId (valueString p.ip) (portsOf p)),
        true) := by
  simp [reconcileAllocations, deletePhase_noFail, createPhase_noFail]

/-- The deletion loop under an arbitrary failure oracle issues the no-failure
trace truncated at the first failing call, and completes iff no issued call
fails. -/
theorem deletePhase_fails (fails : AllocCall → Bool) (nodeId : Int)
    (planAllocs : List Allocation) :
    ∀ cur : List PAllocation,
      (deletePhase fails nodeId planAllocs cur).1 =
        takeToFirstFail fails (deletePhase noFail nodeId planAllocs cur).1 ∧
      (deletePhase fails nodeId planAllocs cur).2 =
        (deletePhase noFail nodeId planAllocs cur).1.all (fun c => !fails c)
  | [] => ⟨rfl, rfl⟩
  | a :: rest => by
    cases h : allocFound planAllocs a with
    | true =>
      simpa [deletePhase, h] using deletePhase_fails fails nodeId planAllocs rest
    | false =>
      have ih := deletePhase_fails fails nodeId planAllocs rest
      cases hf : fails (AllocCall.deleteAlloc nodeId a.id) with
      | true => simp [deletePhase, h, noFail, takeToFirstFail, hf]
      | false => simp [deletePhase, h, noFail, takeToFirstFail, hf, ih.1, ih.2]

/-- The creation loop under an arbitrary failure oracle issues the no-failure
trace truncated at the first failing call, and completes iff no issued call
fails. -/
theorem createPhase_fails (fails : AllocCall → Bool) (nodeId : Int) :
    ∀ planAllocs : List Allocation,
      (createPhase fails nodeId planAllocs).1 =
        takeToFirstFail fails (createPhase noFail nodeId planAllocs).1 ∧
      (createPhase fails nodeId planAllocs).2 =
        (createPhase noFail nodeId planAllocs).1.all (fun c => !fails c)
  | [] => ⟨rfl, rfl⟩
  | p :: rest => by
    cases h : p.id.isNone with
    | false =>
      simpa [createPhase, h] using createPhase_fails fails nodeId rest
    | true =>
      have ih := createPhase_fails fails nodeId rest
      cases hf : fails (AllocCall.createAlloc nodeId (valueString p.ip) (portsOf p)) with
      | true => simp [createPhase, h, noFail, takeToFirstFail, hf]
      | false => simp [createPhase, h, noFail, takeToFirstFail, hf, ih.1, ih.2]

/-- Reconciliation depends on the current allocations only through their
IDs: the inner `found` check and the `DeleteAllocation` argument read nothing
but `allocation.ID`. -/
theorem reconcileAllocations_congr_ids (fails : AllocCall → Bool) (nodeId : Int)
    (planAllocs : List Allocation) :
    ∀ cur cur₂ : List PAllocation,
      cur.map PAllocation.id = cur₂.map PAllocation.id →
      reconcileAllocations fails nodeId planAllocs cur =
        reconcileAllocations fails nodeId planAllocs cur₂ := by
  have key : ∀ cur cur₂ : List PAllocation,
      cur.map PAllocation.id = cur₂.map PAllocation.id →
      deletePhase fails nodeId planAllocs cur =
        deletePhase fails nodeId planAllocs cur₂ := by
    intro cur
    induction cur with
    | nil => intro cur₂ h; cases cur₂ with
      | nil => rfl
      | cons b bs => simp at h
    | cons a rest ih =>
      intro cur₂ h
      cases cur₂ with
      | nil => simp at h
      | cons b bs =>
        simp only [List.map_cons, List.cons.injEq] at h
        have hfound : allocFound planAllocs a = allocFound planAllocs b := by
          simp [allocFound, h.1]
        simp only [deletePhase, hfound, h.1, ih bs h.2]
  intro cur cur₂ h
  simp only [reconcileAllocations, key cur cur₂ h]

/-! ### Claim theorems -/

/-- C3: if any single allocation delete or create call fails during
reconciliation, the whole reconciliation aborts at that first failure: the
calls actually issued are exactly the calls a failure-free run would issue,
truncated at (and including) the first failing one — nothing is issued for
the remaining entities — and the run completes without a reported error iff
none of the failure-free calls fails. -/
theorem reconcile_aborts_on_first_failure (fails : AllocCall → Bool)
    (nodeId : Int) (planAllocs : List Allocation) (cur : List PAllocation) :
    (reconcileAllocations fails nodeId planAllocs cur).1 =
      takeToFirstFail fails (reconcileAllocations noFail nodeId planAllocs cur).1 ∧
    (reconcileAllocations fails nodeId planAllocs cur).2 =
      (reconcileAllocations noFail nodeId planAllocs cur).1.all
        (fun c => !fails c) := by
  have hd := deletePhase_fails fails nodeId planAllocs cur
  have hc := createPhase_fails fails nodeId planAllocs
  have hdn2 : (deletePhase noFail nodeId planAllocs cur).2 = true := by
    rw [deletePhase_noFail]
  have hcn2 : (createPhase noFail nodeId planAllocs).2 = true := by
    rw [createPhase_noFail]
  have hrecN : reconcileAllocations noFail nodeId planAllocs cur =
      ((deletePhase noFail nodeId planAllocs cur).1
        ++ (createPhase noFail nodeId planAllocs).1, true) := by
    simp [reconcileAllocations, hdn2, hcn2]
  cases hall : (deletePhase noFail nodeId planAllocs cur).1.all
      (fun c => !fails c) with
  | true =>
    have hd2 : (deletePhase fails nodeId planAllocs cur).2 = true := by
      rw [hd.2, hall]
    constructor
    · simp [reconcileAllocations, hd2, hdn2, hcn2, hd.1, hc.1,
        takeToFirstFail_of_all fails _ hall,
        takeToFirstFail_append_of_all fails _ _ hall]
    · simp [reconcileAllocations, hd2, hdn2, hcn2, hc.2, List.all_append, hall]
  | false =>
    have hd2 : (deletePhase fails nodeId planAllocs cur).2 = false := by
      rw [hd.2, hall]
    constructor
    · simp [reconcileAllocations, hd2, hdn2, hcn2, hd.1,
        takeToFirstFail_append_of_fail fails _ _ hall]
    · simp [reconcileAllocations, hd2, hdn2, hcn2, List.all_append, hall]

/-- C2, counterexample: with desired = `[{id: null, ip: 10.0.0.1, port:
25565}]` and current = `[{id: 0}]`, no desired allocation has an identifier,
so the claim demands that current allocation `0` be deleted; the code issues
no delete call at all (the null desired ID compares as `0` via
`ValueInt32`), only the create. -/
theorem reconcile_delete_set_counterexample :
    (∀ p ∈ ([⟨none, some "10.0.0.1", none, some 25565, none, none⟩] :
        List Allocation), p.id = none) ∧
    reconcileAllocations noFail 1
        [⟨none, some "10.0.0.1", none, some 25565, none, none⟩]
        [⟨0, "10.0.0.1", "", 25565, "", false⟩] =
      ([AllocCall.createAlloc 1 "10.0.0.1" ["25565"]], true) := by
  constructor
  · intro p hp
    simp only [List.mem_singleton] at hp
    rw [hp]
  · rfl

/-- C2 (amended): reconciliation deletes exactly those current allocations
whose identifier does not equal `ID.ValueInt32()` of any desired allocation —
a desired allocation with a null identifier participating with value `0` —
and creates exactly those desired allocations whose identifier is null, in
order; in the concrete instance desired = `[{id:5}, {no-id, port:25565}]`,
current = `[{id:5}, {id:9}]` it deletes child `9` and creates the new
entry. -/
theorem reconcile_delete_and_create_sets (nodeId : Int)
    (planAllocs : List Allocation) (cur : List PAllocation) :
    reconcileAllocations noFail nodeId planAllocs cur =
      ((cur.filter (fun a => !planAllocs.any
            (fun p => a.id == valueInt32 p.id))).map
          (fun a => AllocCall.deleteAlloc nodeId a.id)
        ++ (planAllocs.filter (fun p => p.id.isNone)).map
          (fun p => AllocCall.createAlloc nodeId (valueString p.ip) (portsOf p)),
        true) ∧
    reconcileAllocations noFail 1
        [⟨some 5, some "10.0.0.1", none, some 25565, none, none⟩,
          ⟨none, some "10.0.0.1", none, some 25565, none, none⟩]
        [⟨5, "10.0.0.1", "", 25565, "", false⟩,
          ⟨9, "10.0.0.1", "", 25566, "", false⟩] =
      ([AllocCall.deleteAlloc 1 9,
        AllocCall.createAlloc 1 "10.0.0.1" ["25565"]], true) :=
  ⟨reconcileAllocations_noFail nodeId planAllocs cur, rfl⟩

/-- C4, counterexample: desired = `[{id: null, ip: 10.0.0.1, port: 25565}]`
with an empty current list: the first run issues exactly one create, after
which the backing store holds the created allocation under a fresh
identifier (here `10`) and the re-fetch returns it. A second run with the
same desired list and that result as current issues a delete of `10` and a
further create — two calls, not zero. -/
theorem reconcile_not_idempotent_counterexample :
    reconcileAllocations noFail 1
        [⟨none, some "10.0.0.1", none, some 25565, none, none⟩] [] =
      ([AllocCall.createAlloc 1 "10.0.0.1" ["25565"]], true) ∧
    reconcileAllocations noFail 1
        [⟨none, some "10.0.0.1", none, some 25565, none, none⟩]
        [⟨10, "10.0.0.1", "", 25565, "", false⟩] =
      ([AllocCall.deleteAlloc 1 10,
        AllocCall.createAlloc 1 "10.0.0.1" ["25565"]], true) ∧
    ([AllocCall.deleteAlloc 1 10,
      AllocCall.createAlloc 1 "10.0.0.1" ["25565"]] : List AllocCall) ≠ [] :=
  ⟨rfl, rfl, List.cons_ne_nil _ _⟩

/-- C4 (amended): reconciliation is idempotent provided every desired
allocation already has an identifier. A first run with such a desired list
issues no creates, so after it the backing store — and hence the freshly
fetched current list of the second run — is the first current list
restricted to the allocations found among the desired identifiers; on that
list the second run issues no calls and completes. -/
theorem reconcile_idempotent_of_all_identified (nodeId : Int)
    (planAllocs : List Allocation) (cur : List PAllocation)
    (h : ∀ p ∈ planAllocs, p.id ≠ none) :
    reconcileAllocations noFail nodeId planAllocs
        (cur.filter (fun a => allocFound planAllocs a)) = ([], true) := by
  rw [reconcileAllocations_noFail]
  have h1 : (cur.filter (fun a => allocFound planAllocs a)).filter
      (fun a => !allocFound planAllocs a) = [] := by
    rw [List.filter_filter]
    apply List.filter_eq_nil_iff.mpr
    intro a _
    cases hf : allocFound planAllocs a <;> simp [hf]
  have h2 : planAllocs.filter (fun p => p.id.isNone) = [] := by
    apply List.filter_eq_nil_iff.mpr
    intro p hp
    have := h p hp
    cases hid : p.id with
    | none => exact absurd hid this
    | some v => simp
  rw [h1, h2]
  simp

/-- C4 witness: the amended idempotence theorem applied at desired =
`[{id:5}]`, current = `[{id:5}, {id:9}]`. -/
theorem reconcile_idempotent_of_all_identified_witness :
    reconcileAllocations noFail 1
        [⟨some 5, some "10.0.0.1", none, some 25565, none, none⟩]
        (([⟨5, "10.0.0.1", "", 25565, "", false⟩,
           ⟨9, "10.0.0.1", "", 25566, "", false⟩] : List PAllocation).filter
          (fun a => allocFound
            [⟨some 5, some "10.0.0.1", none, some 25565, none, none⟩] a)) =
      ([], true) :=
  reconcile_idempotent_of_all_identified 1 _ _ (by decide)

/-- C5: a current allocation whose identifier equals the identifier of some
desired allocation that has one is neither deleted nor created — no delete
call with its identifier is ever issued — and the whole reconciliation
outcome is unchanged when the non-identifying attributes (ip, alias, port,
notes, assigned) of current allocations change: it depends on the current
list only through its identifiers, and no in-place-update call exists in the
call vocabulary. -/
theorem matched_allocation_untouched (nodeId : Int)
    (planAllocs : List Allocation) (cur cur₂ : List PAllocation) (i : Int)
    (hmatch : ∃ p ∈ planAllocs, p.id = some i)
    (hids : cur.map PAllocation.id = cur₂.map PAllocation.id) :
    AllocCall.deleteAlloc nodeId i ∉
      (reconcileAllocations noFail nodeId planAllocs cur).1 ∧
    reconcileAllocations noFail nodeId planAllocs cur =
      reconcileAllocations noFail nodeId planAllocs cur₂ := by
  constructor
  · rw [reconcileAllocations_noFail]
    intro hmem
    rcases List.mem_append.mp hmem with hterm | hterm
    · rcases List.mem_map.mp hterm with ⟨a, haf, heq⟩
      rcases List.mem_filter.mp haf with ⟨_, hnf⟩
      have haid : a.id = i := by
        injection heq with h1 h2
      obtain ⟨p, hp, hpid⟩ := hmatch
      have hfound : allocFound planAllocs a = true := by
        simp only [allocFound]
        apply List.any_eq_true.mpr
        exact ⟨p, hp, by simp [hpid, haid, valueInt32]⟩
      rw [hfound] at hnf
      simp at hnf
    · rcases List.mem_map.mp hterm with ⟨q, _, heq⟩
      simp at heq
  · exact reconcileAllocations_congr_ids noFail nodeId planAllocs cur cur₂ hids

/-- C5 witness: the theorem applied at desired = `[{id:5}]`, current =
`[{id:5, ip:10.0.0.1, port:25565}]` against a variant current list in which
every non-identifying attribute of the matched allocation differs. -/
theorem matched_allocation_untouched_witness :
    AllocCall.deleteAlloc 1 5 ∉
      (reconcileAllocations noFail 1
        [⟨some 5, some "10.0.0.1", none, some 25565, none, none⟩]
        [⟨5, "10.0.0.1", "", 25565, "", false⟩]).1 ∧
    reconcileAllocations noFail 1
        [⟨some 5, some "10.0.0.1", none, some 25565, none, none⟩]
        [⟨5, "10.0.0.1", "", 25565, "", false⟩] =
      reconcileAllocations noFail 1
        [⟨some 5, some "10.0.0.1", none, some 25565, none, none⟩]
        [⟨5, "10.0.0.2", "alias", 25570, "changed", true⟩] :=
  matched_allocation_untouched 1 _ _ _ 5
    ⟨⟨some 5, some "10.0.0.1", none, some 25565, none, none⟩, by simp, rfl⟩ rfl

/-- C10: a desired allocation whose id is null compares as identifier `0`
(`ValueInt32`) in the deletion phase: when the desired list contains a
null-id entry, a current allocation with persisted identifier `0` is treated
as matched and no delete call for it is issued, while that same null-id
entry is still submitted to `CreateAllocation` in the creation phase. -/
theorem null_desired_id_matches_zero (nodeId : Int)
    (planAllocs : List Allocation) (cur : List PAllocation) (p : Allocation)
    (hp : p ∈ planAllocs) (hpid : p.id = none) :
    (∀ a ∈ cur, a.id = 0 →
      AllocCall.deleteAlloc nodeId a.id ∉
        (reconcileAllocations noFail nodeId planAllocs cur).1) ∧
    AllocCall.createAlloc nodeId (valueString p.ip) (portsOf p) ∈
      (reconcileAllocations noFail nodeId planAllocs cur).1 := by
  constructor
  · intro a _ haz
    rw [reconcileAllocations_noFail]
    intro hmem
    rcases List.mem_append.mp hmem with hterm | hterm
    · rcases List.mem_map.mp hterm with ⟨b, hbf, heq⟩
      rcases List.mem_filter.mp hbf with ⟨_, hnf⟩
      have hbid : b.id = a.id := by
        injection heq with h1 h2
      have hfound : allocFound planAllocs b = true := by
        simp only [allocFound]
        apply List.any_eq_true.mpr
        exact ⟨p, hp, by simp [hpid, hbid, haz, valueInt32]⟩
      rw [hfound] at hnf
      simp at hnf
    · rcases List.mem_map.mp hterm with ⟨q, _, heq⟩
      simp at heq
  · rw [reconcileAllocations_noFail]
    apply List.mem_append.mpr
    right
    apply List.mem_map.mpr
    refine ⟨p, List.mem_filter.mpr ⟨hp, ?_⟩, rfl⟩
    simp [hpid]

/-- C10 witness: the theorem applied at desired = `[{id: null, ip:
10.0.0.1, port: 25565}]`, current = `[{id: 0}]`. -/
theorem null_desired_id_matches_zero_witness :
    (∀ a ∈ ([⟨0, "10.0.0.1", "", 25565, "", false⟩] : List PAllocation),
      a.id = 0 →
      AllocCall.deleteAlloc 1 a.id ∉
        (reconcileAllocations noFail 1
          [⟨none, some "10.0.0.1", none, some 25565, none, none⟩]
          [⟨0, "10.0.0.1", "", 25565, "", false⟩]).1) ∧
    AllocCall.createAlloc 1
        (valueString (Allocation.ip
          ⟨none, some "10.0.0.1", none, some 25565, none, none⟩))
        (portsOf ⟨none, some "10.0.0.1", none, some 25565, none, none⟩) ∈
      (reconcileAllocations noFail 1
        [⟨none, some "10.0.0.1", none, some 25565, none, none⟩]
        [⟨0, "10.0.0.1", "", 25565, "", false⟩]).1 :=
  null_desired_id_matches_zero 1 _ _ _ (by simp) rfl

/-- C1: the final-state assembly of `Update` lines 494-505 (and `Create`
lines 285-296) does not write the freshly fetched allocation list:
`make([]Allocation, len(nodeAllocations))` followed by `append` in the loop
yields a list of twice the fetched length whose first half consists of
zero-value (all-null) allocations. At the input of a single fetched
allocation `{id:7, ip:10.0.0.1, port:25565}` the state list is
`[zero-value allocation, converted fetched allocation]`, which differs from
the converted fetched list itself. -/
theorem final_state_not_fetched_list :
    (∀ l : List PAllocation, (finalStateAllocations l).length = 2 * l.length) ∧
    finalStateAllocations [⟨7, "10.0.0.1", "", 25565, "", false⟩] =
      [zeroAllocation, allocationOfP ⟨7, "10.0.0.1", "", 25565, "", false⟩] ∧
    finalStateAllocations [⟨7, "10.0.0.1", "", 25565, "", false⟩] ≠
      ([⟨7, "10.0.0.1", "", 25565, "", false⟩] : List PAllocation).map
        allocationOfP := by
  refine ⟨?_, rfl, ?_⟩
  · intro l
    simp [finalStateAllocations]
    omega
  · intro h
    have hlen := congrArg List.length h
    simp [finalStateAllocations] at hlen

/-- A UUID scan over a list with no matching element leaves `node` at its
zero value. -/
theorem scanUUID_of_no_match (u : String) :
    ∀ ns : List Node, (∀ n ∈ ns, n.uuid ≠ u) → scanUUID u ns = zeroNode
  | [], _ => rfl
  | n :: rest, h => by
    have hn : (n.uuid == u) = false := by
      cases hb : n.uuid == u
      · rfl
      · exact absurd (eq_of_beq hb) (h n (List.mem_cons_self n rest))
    simp [scanUUID, hn,
      scanUUID_of_no_match u rest (fun m hm => h m (List.mem_cons_of_mem n hm))]

/-- A name scan over a list with no matching element leaves `node` at its
zero value. -/
theorem scanName_of_no_match (nm : String) :
    ∀ ns : List Node, (∀ n ∈ ns, n.name ≠ nm) → scanName nm ns = zeroNode
  | [], _ => rfl
  | n :: rest, h => by
    have hn : (n.name == nm) = false := by
      cases hb : n.name == nm
      · rfl
      · exact absurd (eq_of_beq hb) (h n (List.mem_cons_self n rest))
    simp [scanName, hn,
      scanName_of_no_match nm rest (fun m hm => h m (List.mem_cons_of_mem n hm))]

/-- A name scan returns the first matching element in iteration order. -/
theorem scanName_first_match (nm : String) (n : Node) (post : List Node)
    (hn : n.name = nm) :
    ∀ pre : List Node, (∀ m ∈ pre, m.name ≠ nm) →
      scanName nm (pre ++ n :: post) = n
  | [], _ => by simp [scanName, hn]
  | m :: pre, h => by
    have hm : (m.name == nm) = false := by
      cases hb : m.name == nm
      · rfl
      · exact absurd (eq_of_beq hb) (h m (List.mem_cons_self m pre))
    simp only [List.cons_append, scanName, hm, Bool.false_eq_true, if_false]
    exact scanName_first_match nm n post hn pre
      (fun q hq => h q (List.mem_cons_of_mem m hq))

/-- C6: when the id attribute is populated, the read issues exactly the
fetch-by-id call — `GetNodes` is never invoked — regardless of the other
attributes; and the attributes are examined in the fixed priority order id,
uuid, name: with a null id, a populated uuid wins over a populated name and
resolves by UUID scan, and only with both id and uuid null does a populated
name resolve by name scan. -/
theorem lookup_priority_id_first (fetchNode : Int → Except String Node)
    (fetchNodes : Except String (List Node)) (i : Int)
    (u : Option String) (nm : String) :
    (nodeDataSourceRead fetchNode fetchNodes ⟨some i, u, some nm⟩).1 =
      [NodeApiCall.getNode i] ∧
    NodeApiCall.getNodes ∉
      (nodeDataSourceRead fetchNode fetchNodes ⟨some i, u, some nm⟩).1 ∧
    (∀ (ns : List Node) (uv : String),
      nodeDataSourceRead fetchNode (Except.ok ns) ⟨none, some uv, some nm⟩ =
        ([NodeApiCall.getNodes],
          ReadResult.ok (mapNodeToState (scanUUID uv ns)))) ∧
    (∀ ns : List Node,
      nodeDataSourceRead fetchNode (Except.ok ns) ⟨none, none, some nm⟩ =
        ([NodeApiCall.getNodes],
          ReadResult.ok (mapNodeToState (scanName nm ns)))) := by
  refine ⟨rfl, ?_, fun ns uv => rfl, fun ns => rfl⟩
  intro hmem
  simp [nodeDataSourceRead] at hmem

/-- C7: with none of id, uuid and name populated, the read adds the
missing-attribute diagnostic and returns before issuing any network call:
the call trace is empty. -/
theorem missing_attribute_no_network_call (fetchNode : Int → Except String Node)
    (fetchNodes : Except String (List Node)) :
    nodeDataSourceRead fetchNode fetchNodes ⟨none, none, none⟩ =
      ([], ReadResult.err "Missing Attribute"
        "One of id, uuid or name must be specified.") := rfl

/-- C8: a lookup by uuid (or by name) whose fetch-all succeeds but contains
no entity with the requested attribute value completes without a backend
error: the result is the state mapped from the zero-value node (every
attribute set from the Go zero value of `pterodactyl.Node`). -/
theorem no_match_yields_zero_record (fetchNode : Int → Except String Node)
    (ns : List Node) (u nm : String)
    (hu : ∀ n ∈ ns, n.uuid ≠ u) (hn : ∀ n ∈ ns, n.name ≠ nm) :
    nodeDataSourceRead fetchNode (Except.ok ns) ⟨none, some u, none⟩ =
      ([NodeApiCall.getNodes], ReadResult.ok (mapNodeToState zeroNode)) ∧
    nodeDataSourceRead fetchNode (Except.ok ns) ⟨none, none, some nm⟩ =
      ([NodeApiCall.getNodes], ReadResult.ok (mapNodeToState zeroNode)) := by
  constructor
  · simp [nodeDataSourceRead, scanUUID_of_no_match u ns hu]
  · simp [nodeDataSourceRead, scanName_of_no_match nm ns hn]

/-- C8 witness: the theorem applied to a backend with one node whose uuid is
`"a"` and whose name is `"x"`, looked up by uuid `"b"` and name `"y"`. -/
theorem no_match_yields_zero_record_witness :
    nodeDataSourceRead (fun _ => Except.ok zeroNode)
        (Except.ok [{ zeroNode with id := 1, uuid := "a", name := "x" }])
        ⟨none, some "b", none⟩ =
      ([NodeApiCall.getNodes], ReadResult.ok (mapNodeToState zeroNode)) ∧
    nodeDataSourceRead (fun _ => Except.ok zeroNode)
        (Except.ok [{ zeroNode with id := 1, uuid := "a", name := "x" }])
        ⟨none, none, some "y"⟩ =
      ([NodeApiCall.getNodes], ReadResult.ok (mapNodeToState zeroNode)) :=
  no_match_yields_zero_record (fun _ => Except.ok zeroNode) _ "b" "y"
    (by simp [zeroNode]) (by simp [zeroNode])

/-- C9: a name lookup over a successful fetch-all whose result contains two
or more nodes with the requested name resolves, without an error, to the
first matching node in the iteration order of the returned list. -/
theorem duplicate_name_first_match (fetchNode : Int → Except String Node)
    (nm : String) (pre post : List Node) (n : Node)
    (hpre : ∀ m ∈ pre, m.name ≠ nm) (hn : n.name = nm)
    (_hdup : ∃ m ∈ post, m.name = nm) :
    nodeDataSourceRead fetchNode (Except.ok (pre ++ n :: post))
        ⟨none, none, some nm⟩ =
      ([NodeApiCall.getNodes], ReadResult.ok (mapNodeToState n)) := by
  simp [nodeDataSourceRead, scanName_first_match nm n post hn pre hpre]

/-- C9 witness: two nodes named `"prod-1"`; the lookup returns the one that
comes first in the listing. -/
theorem duplicate_name_first_match_witness :
    nodeDataSourceRead (fun _ => Except.ok zeroNode)
        (Except.ok ([] ++ { zeroNode with id := 1, name := "prod-1" } ::
          [{ zeroNode with id := 2, name := "prod-1" }]))
        ⟨none, none, some "prod-1"⟩ =
      ([NodeApiCall.getNodes],
        ReadResult.ok (mapNodeToState { zeroNode with id := 1, name := "prod-1" })) :=
  duplicate_name_first_match (fun _ => Except.ok zeroNode) "prod-1" [] _ _
    (by simp) rfl ⟨{ zeroNode with id := 2, name := "prod-1" }, by simp, rfl⟩

end Pterodactyl
